import Mathlib

/-!
Verification development for the nutrient-calculator repository
(src/js/scripts.js).

The JavaScript source is shallowly embedded here:

* JavaScript numbers are modelled as exact rationals extended with the
  IEEE special values NaN, +Infinity and -Infinity (`JsNum`); arithmetic
  on the finite part is exact rational arithmetic (rounding of binary
  doubles is abstracted away, matching the spec's "within floating
  tolerance" reading).
* `extractNutrients` (scripts.js lines 44-70), `estimateGramsFromMeasure`
  (lines 78-106), `displayNutrients` (lines 114-121), `calculate`
  (lines 127-147) and `estimateMealNutrition` (lines 225-263) are
  translated function by function.
* DOM reads/writes, `fetch`, logging and the `toFixed` text formatting of
  the display layer are presentation/I-O and are outside the numeric
  model: the display functions return the numbers handed to the DOM, and
  the external nutrition provider is a parameter (`String → LookupOutcome`).
* The regex `^([\d./]+)\s*([a-zA-Z]+)` is compiled to explicit
  `takeWhile`/`dropWhile` scans.  This is faithful because the three
  character classes `[\d./]`, `\s` and `[a-zA-Z]` are pairwise disjoint,
  so the greedy match never backtracks.
* Lowercasing models JavaScript `toLowerCase` exactly on every character
  whose case mapping can influence the match or the captured tokens: the
  ASCII letters, U+212A (KELVIN SIGN, which lowercases to ASCII `k`) and
  U+0130 (which lowercases to `i` followed by U+0307).  These are the only
  Unicode characters whose lowercase image meets `[a-zA-Z]` (no character
  lowercases into `[\d./]` or `\s`, and U+0130 has the only multi-character
  lowercase mapping).  Every other character is kept unchanged; its true
  lowercase image has exactly the same (empty) class memberships, so the
  match result and both captured groups are those of the program.
* The unit lookup `measureToGrams[unit] || 100` is on an object literal,
  which inherits from `Object.prototype`.  The captured unit token consists
  only of lowercase ASCII letters, and the only `Object.prototype` property
  whose name is purely lowercase alphabetic is `constructor` (all others
  contain uppercase letters or underscores), so the single inherited key
  reachable here is `"constructor"`: its value is the truthy `Object`
  constructor function, the `|| 100` default is skipped, and multiplying a
  number by a function yields NaN.  `unitGramsJs` models this.
-/

/-- The character class of JavaScript `\s` (and of `String.prototype.trim`):
ASCII whitespace plus the Unicode space separators, line separators and BOM. -/
def jsIsSpace (c : Char) : Bool :=
  c = ' ' || c = '\t' || c = '\n' || c = '\r' || c = '\x0b' || c = '\x0c' ||
  c = ' ' || c = ' ' || c = ' ' || c = ' ' || c = ' ' ||
  c = ' ' || c = ' ' || c = ' ' || c = ' ' || c = ' ' ||
  c = ' ' || c = ' ' || c = ' ' || c = ' ' || c = ' ' ||
  c = ' ' || c = ' ' || c = '　' || c = '﻿'

/-- JavaScript `String.prototype.trim` on a character list: strip leading and
trailing whitespace. -/
def trimChars (l : List Char) : List Char :=
  ((l.dropWhile jsIsSpace).reverse.dropWhile jsIsSpace).reverse

/-- `measure.trim()` as a `String` operation. -/
def jsTrimStr (s : String) : String :=
  String.mk (trimChars s.data)

/-- JavaScript `toLowerCase` on one character, restricted to the mappings
that can affect the pattern match: ASCII letters via `Char.toLower`, the
KELVIN SIGN U+212A to ASCII `k`, and U+0130 to `i` followed by the
combining dot U+0307 (the one multi-character lowercase mapping).  All
remaining characters are kept as they are: their true lowercase images lie,
like themselves, outside all three regex character classes, so the match
and the captured tokens are unaffected. -/
def jsToLowerChar (c : Char) : List Char :=
  if c = 'K' then ['k']
  else if c = 'İ' then ['i', '̇']
  else [c.toLower]

/-- `measure.trim().toLowerCase()` (scripts.js line 83), as a character list. -/
def cleanChars (s : String) : List Char :=
  (trimChars s.data).flatMap jsToLowerChar

/-- A JavaScript number: NaN, the two infinities, or a finite value
(modelled as an exact rational). -/
inductive JsNum where
  | nan : JsNum
  | posInf : JsNum
  | negInf : JsNum
  | num : ℚ → JsNum
  deriving DecidableEq, Repr

/-- IEEE multiplication on `JsNum` (exact on finite values). -/
def jsMul : JsNum → JsNum → JsNum
  | .nan, _ => .nan
  | _, .nan => .nan
  | .num a, .num b => .num (a * b)
  | .num a, .posInf => if 0 < a then .posInf else if a < 0 then .negInf else .nan
  | .num a, .negInf => if 0 < a then .negInf else if a < 0 then .posInf else .nan
  | .posInf, .num b => if 0 < b then .posInf else if b < 0 then .negInf else .nan
  | .negInf, .num b => if 0 < b then .negInf else if b < 0 then .posInf else .nan
  | .posInf, .posInf => .posInf
  | .posInf, .negInf => .negInf
  | .negInf, .posInf => .negInf
  | .negInf, .negInf => .posInf

/-- IEEE addition on `JsNum` (exact on finite values). -/
def jsAdd : JsNum → JsNum → JsNum
  | .nan, _ => .nan
  | _, .nan => .nan
  | .num a, .num b => .num (a + b)
  | .posInf, .negInf => .nan
  | .negInf, .posInf => .nan
  | .posInf, _ => .posInf
  | _, .posInf => .posInf
  | .negInf, _ => .negInf
  | _, .negInf => .negInf

/-- IEEE division on `JsNum` (exact on finite values; a nonzero finite value
divided by zero gives a signed infinity, `0/0` gives NaN).  Negative zero is
not modelled: no negative value arises anywhere in this program. -/
def jsDiv : JsNum → JsNum → JsNum
  | .nan, _ => .nan
  | _, .nan => .nan
  | .num a, .num b =>
      if b = 0 then (if a = 0 then .nan else if 0 < a then .posInf else .negInf)
      else .num (a / b)
  | .num _, .posInf => .num 0
  | .num _, .negInf => .num 0
  | .posInf, .num b => if b < 0 then .negInf else .posInf
  | .negInf, .num b => if b < 0 then .posInf else .negInf
  | .posInf, .posInf => .nan
  | .posInf, .negInf => .nan
  | .negInf, .posInf => .nan
  | .negInf, .negInf => .nan

/-- Value of a digit run, most significant first. -/
def digitsToNat (l : List Char) : ℕ :=
  l.foldl (fun a c => 10 * a + (c.toNat - 48)) 0

/-- The leading decimal literal of a digit/dot string, if any: optional
integer digits, optionally followed by a dot and fraction digits; trailing
characters are ignored.  This models JavaScript `parseFloat` on the strings
that reach it in this program, which consist only of digits and dots (the
matched token is drawn from `[0-9./]`, and the `/`-free pieces are what get
parsed). -/
def parseDecimalQ (l : List Char) : Option ℚ :=
  let ip := l.takeWhile Char.isDigit
  let r := l.drop ip.length
  match r with
  | '.' :: r2 =>
      let fp := r2.takeWhile Char.isDigit
      if ip.isEmpty && fp.isEmpty then none
      else some ((digitsToNat ip : ℚ) + (digitsToNat fp : ℚ) / (10 : ℚ) ^ fp.length)
  | _ => if ip.isEmpty then none else some (digitsToNat ip : ℚ)

/-- `parseFloat` on the digit/dot strings occurring in this program:
NaN when no decimal literal is present. -/
def jsParseFloat (l : List Char) : JsNum :=
  match parseDecimalQ l with
  | some q => JsNum.num q
  | none => JsNum.nan

/-- The character class `[\d./]` of the quantity token. -/
def isTokChar (c : Char) : Bool :=
  c.isDigit || c = '.' || c = '/'

/-- The regex match `cleaned.match(/^([\d./]+)\s*([a-zA-Z]+)/)`
(scripts.js line 86), compiled to explicit scans: the greedy quantity token,
an optional whitespace run, then a mandatory alphabetic run.  Since the three
character classes are pairwise disjoint the greedy scan is exactly the regex
semantics (no backtracking can succeed where the scan fails). -/
def jsMatch (l : List Char) : Option (List Char × List Char) :=
  let tok := l.takeWhile isTokChar
  if tok.isEmpty then none
  else
    let r2 := (l.drop tok.length).dropWhile jsIsSpace
    let alpha := r2.takeWhile Char.isAlpha
    if alpha.isEmpty then none else some (tok, alpha)

/-- The static unit table (scripts.js lines 11-15). -/
def measureToGrams (u : String) : Option ℚ :=
  if u = "cup" then some 240
  else if u = "tablespoon" then some 15
  else if u = "tbsp" then some 15
  else if u = "teaspoon" then some 5
  else if u = "tsp" then some 5
  else if u = "slice" then some 30
  else if u = "slices" then some 30
  else if u = "piece" then some 50
  else if u = "pieces" then some 50
  else if u = "oz" then some 28
  else if u = "ounces" then some 28
  else if u = "pound" then some 454
  else if u = "lb" then some 454
  else if u = "g" then some 1
  else if u = "gram" then some 1
  else if u = "grams" then some 1
  else none

/-- The grams-per-unit value `measureToGrams[unit] || 100` (scripts.js
line 103) as the number it contributes to the product.  The lookup is on an
object literal, so it also sees `Object.prototype`: the captured unit token
is lowercase alphabetic, and the only such inherited property name is
`"constructor"`, whose value is the truthy `Object` constructor function —
`|| 100` keeps it, and a number times a function is NaN.  For every other
unit the own-key value (all sixteen are positive, hence truthy) or the 100
default applies. -/
def unitGramsJs (u : String) : JsNum :=
  if u = "constructor" then JsNum.nan
  else JsNum.num ((measureToGrams u).getD 100)

/-- The quantity block of `estimateGramsFromMeasure` (scripts.js lines
93-101): a token containing `/` is split at every `/` and the first two
pieces are divided; otherwise the token is parsed as a decimal. -/
def tokenQuantity (tok : List Char) : JsNum :=
  if '/' ∈ tok then
    let parts := tok.splitOn '/'
    jsDiv (jsParseFloat (parts.getD 0 [])) (jsParseFloat (parts.getD 1 []))
  else jsParseFloat tok

/-- `estimateGramsFromMeasure` (scripts.js lines 78-106).  The argument is
`Option String`: `none` models a missing (`undefined`/`null`) measure, which
is falsy, as is the empty string.  The grams-per-unit factor, including the
`|| 100` default and the inherited `"constructor"` key, is `unitGramsJs`. -/
def estimateGramsFromMeasure (measure : Option String) : JsNum :=
  match measure with
  | none => JsNum.num 100
  | some s =>
    if s = "" then JsNum.num 100
    else
      match jsMatch (cleanChars s) with
      | none => JsNum.num 100
      | some (tok, unit) =>
          jsMul (tokenQuantity tok) (unitGramsJs (String.mk unit))

/-- One named nutrient entry of a provider food record. -/
structure NutrientEntry where
  nutrientName : String
  value : ℚ
  deriving DecidableEq, Repr

/-- A provider food record: the list of its nutrient entries
(`foodItem.foodNutrients`). -/
structure FoodRecord where
  foodNutrients : List NutrientEntry
  deriving DecidableEq, Repr

/-- The four extracted per-100g values. -/
structure NutrientProfile where
  calories : ℚ
  protein : ℚ
  carbs : ℚ
  fat : ℚ
  deriving DecidableEq, Repr

/-- One step of the `forEach` switch in `extractNutrients` (scripts.js lines
52-67): an entry whose name matches one of the four recognized names
overwrites the corresponding field; any other entry is ignored. -/
def applyNutrient (p : NutrientProfile) (n : NutrientEntry) : NutrientProfile :=
  if n.nutrientName = "Energy" then { p with calories := n.value }
  else if n.nutrientName = "Protein" then { p with protein := n.value }
  else if n.nutrientName = "Carbohydrate, by difference" then { p with carbs := n.value }
  else if n.nutrientName = "Total lipid (fat)" then { p with fat := n.value }
  else p

/-- `extractNutrients` (scripts.js lines 44-70): all four fields start at 0,
then the entries are scanned in order. -/
def extractNutrients (foodItem : FoodRecord) : NutrientProfile :=
  foodItem.foodNutrients.foldl applyNutrient ⟨0, 0, 0, 0⟩

/-- `displayNutrients` (scripts.js lines 114-121): the four numbers written
to the result fields, each `per-100g value * (quantity / 100)`.  The
`toFixed(1)` string rendering of the DOM layer is presentation and is not
part of the numeric model. -/
def displayNutrients (nutrients : NutrientProfile) (quantity : ℚ) : NutrientProfile :=
  let scale := quantity / 100
  ⟨nutrients.calories * scale, nutrients.protein * scale,
   nutrients.carbs * scale, nutrients.fat * scale⟩

/-- `calculate` (scripts.js lines 127-147), with the DOM reads and the
nutrition provider abstracted: the trimmed food name must be nonempty and the
quantity positive, the provider's first record (or `none` for a thrown
"Food not found" / fetch error) is extracted and scaled.  `none` models the
alert paths. -/
def calculate (provider : String → Option FoodRecord) (foodInput : String)
    (quantity : ℚ) : Option NutrientProfile :=
  let foodName := jsTrimStr foodInput
  if foodName = "" ∨ quantity ≤ 0 then none
  else
    match provider foodName with
    | none => none
    | some foodItem => some (displayNutrients (extractNutrients foodItem) quantity)

/-- Outcome of one provider lookup inside the aggregator: the fetch threw,
or it returned no record (`data.foods` missing/empty), or it returned a first
record. -/
inductive LookupOutcome where
  | err : LookupOutcome
  | noRecord : LookupOutcome
  | found : FoodRecord → LookupOutcome
  deriving DecidableEq, Repr

/-- A recipe-provider meal: the indexed `strIngredient1..20` /
`strMeasure1..20` string pairs (`none` models an absent or null field). -/
structure Meal where
  strIngredient : ℕ → Option String
  strMeasure : ℕ → Option String

/-- The running totals of `estimateMealNutrition`.  The fields are `JsNum`
because the scale factor comes from `estimateGramsFromMeasure`, whose value
can be non-finite on degenerate measures. -/
structure MealTotals where
  calories : JsNum
  protein : JsNum
  carbs : JsNum
  fat : JsNum
  deriving DecidableEq, Repr

/-- The all-zero initial totals (scripts.js lines 227-232). -/
def MealTotals.zero : MealTotals :=
  ⟨JsNum.num 0, JsNum.num 0, JsNum.num 0, JsNum.num 0⟩

/-- The body of one iteration of the ingredient loop in
`estimateMealNutrition` (scripts.js lines 237-263): skip an absent or
blank-after-trim ingredient; a thrown fetch (`err`) or an empty result
(`noRecord`) leaves the totals unchanged; a found record contributes each
extracted value times `grams / 100`.  The `(nutrients.calories || 0)` guards
are identities here because profile fields are always rationals (and `0 || 0`
is `0`). -/
def mealStep (lookup : String → LookupOutcome) (meal : Meal) (i : ℕ)
    (totals : MealTotals) : MealTotals :=
  match meal.strIngredient i with
  | none => totals
  | some ingredient =>
    if jsTrimStr ingredient = "" then totals
    else
      match lookup ingredient with
      | .err => totals
      | .noRecord => totals
      | .found foodItem =>
          let nutrients := extractNutrients foodItem
          let grams := estimateGramsFromMeasure (meal.strMeasure i)
          let scale := jsDiv grams (JsNum.num 100)
          ⟨jsAdd totals.calories (jsMul (JsNum.num nutrients.calories) scale),
           jsAdd totals.protein (jsMul (JsNum.num nutrients.protein) scale),
           jsAdd totals.carbs (jsMul (JsNum.num nutrients.carbs) scale),
           jsAdd totals.fat (jsMul (JsNum.num nutrients.fat) scale)⟩

/-- The totals after the first `k` iterations of the loop (slots 1..k). -/
def totalsAfterSlots (lookup : String → LookupOutcome) (meal : Meal) (k : ℕ) :
    MealTotals :=
  (List.range k).foldl (fun t j => mealStep lookup meal (j + 1) t) MealTotals.zero

/-- `estimateMealNutrition` (scripts.js lines 225-263): the fold over the 20
indexed slots.  The trailing DOM writes are presentation. -/
def estimateMealNutrition (lookup : String → LookupOutcome) (meal : Meal) :
    MealTotals :=
  totalsAfterSlots lookup meal 20

/-! ## Specification-side definitions

These follow the wording of the specification and the claims; the theorems
below compare them with the code-derived definitions above. -/

/-- The four recognized nutrient names, as listed by the spec. -/
def recognizedNames : List String :=
  ["Energy", "Protein", "Carbohydrate, by difference", "Total lipid (fat)"]

/-- The sixteen unit-table keys, as listed by the spec. -/
def unitKeys : List String :=
  ["cup", "tablespoon", "tbsp", "teaspoon", "tsp", "slice", "slices",
   "piece", "pieces", "oz", "ounces", "pound", "lb", "g", "gram", "grams"]

/-- The value of the last entry of `l` whose name is exactly `name`,
or 0 when there is none (the spec's "last match wins" description). -/
def lastMatchValue (name : String) (l : List NutrientEntry) : ℚ :=
  match (l.filter fun n => n.nutrientName = name).getLast? with
  | some n => n.value
  | none => 0

/-- Scale one nutrient entry's value by `k`. -/
def scaleEntry (k : ℚ) (n : NutrientEntry) : NutrientEntry :=
  ⟨n.nutrientName, k * n.value⟩

/-- Scale every nutrient value of a record by `k`. -/
def scaleRecord (k : ℚ) (r : FoodRecord) : FoodRecord :=
  ⟨r.foodNutrients.map (scaleEntry k)⟩

/-- Scale all four fields of a profile by `k`. -/
def scaleProfile (k : ℚ) (p : NutrientProfile) : NutrientProfile :=
  ⟨k * p.calories, k * p.protein, k * p.carbs, k * p.fat⟩

/-- One ingredient's contribution to the meal totals: each extracted
per-100g value times `grams / 100`. -/
def scaledContribution (p : NutrientProfile) (grams : JsNum) : MealTotals :=
  let scale := jsDiv grams (JsNum.num 100)
  ⟨jsMul (JsNum.num p.calories) scale, jsMul (JsNum.num p.protein) scale,
   jsMul (JsNum.num p.carbs) scale, jsMul (JsNum.num p.fat) scale⟩

/-- Fieldwise addition of totals. -/
def addTotals (t c : MealTotals) : MealTotals :=
  ⟨jsAdd t.calories c.calories, jsAdd t.protein c.protein,
   jsAdd t.carbs c.carbs, jsAdd t.fat c.fat⟩

/-- An ingredient slot is skipped when it is absent or blank after trimming. -/
def blankIngredient (o : Option String) : Bool :=
  match o with
  | none => true
  | some s => jsTrimStr s = ""

/-- `meal` with slot `j`'s ingredient removed. -/
def blankSlot (meal : Meal) (j : ℕ) : Meal :=
  ⟨fun i => if i = j then none else meal.strIngredient i, meal.strMeasure⟩

/-- The claim's measure pattern, following the spec's words: after trimming
and lowercasing, a leading token drawn from digits, dots and slashes,
followed by a whitespace run — mandatory when `requireWs` is `true`,
optional otherwise — and then a nonempty alphabetic run. -/
def numUnitPattern (requireWs : Bool) (s : String) : Bool :=
  let l := cleanChars s
  let tok := l.takeWhile isTokChar
  let rest := l.drop tok.length
  let ws := rest.takeWhile jsIsSpace
  let alpha := (rest.dropWhile jsIsSpace).takeWhile Char.isAlpha
  !tok.isEmpty && (!requireWs || !ws.isEmpty) && !alpha.isEmpty

/-- A `JsNum` that is finite and nonnegative. -/
def NonnegJs (x : JsNum) : Prop :=
  ∃ q : ℚ, x = JsNum.num q ∧ 0 ≤ q

/-- All four running totals are finite and nonnegative. -/
def NonnegTotals (t : MealTotals) : Prop :=
  NonnegJs t.calories ∧ NonnegJs t.protein ∧ NonnegJs t.carbs ∧ NonnegJs t.fat

/-- The spec's apple record: per-100g Energy 52, Protein 0.3,
Carbohydrate 14, fat 0.2. -/
def appleRecord : FoodRecord :=
  ⟨[⟨"Energy", 52⟩, ⟨"Protein", 3 / 10⟩,
    ⟨"Carbohydrate, by difference", 14⟩, ⟨"Total lipid (fat)", 1 / 5⟩]⟩

/-! ## Helper lemmas -/

theorem getLast?_append_single {α : Type} (l : List α) (a : α) :
    (l ++ [a]).getLast? = some a := by
  induction l with
  | nil => rfl
  | cons x xs ih =>
      rw [List.cons_append, List.getLast?_cons, ih]
      rfl

theorem lastMatchValue_concat (name : String) (l : List NutrientEntry)
    (n : NutrientEntry) :
    lastMatchValue name (l ++ [n]) =
      if n.nutrientName = name then n.value else lastMatchValue name l := by
  unfold lastMatchValue
  rw [List.filter_append]
  by_cases h : n.nutrientName = name
  · simp [h, getLast?_append_single]
  · simp [h]

theorem foldl_applyNutrient_eq (l : List NutrientEntry) :
    l.foldl applyNutrient ⟨0, 0, 0, 0⟩ =
      ⟨lastMatchValue "Energy" l, lastMatchValue "Protein" l,
       lastMatchValue "Carbohydrate, by difference" l,
       lastMatchValue "Total lipid (fat)" l⟩ := by
  induction l using List.reverseRecOn with
  | nil => rfl
  | append_singleton l n ih =>
      rw [List.foldl_append, List.foldl_cons, List.foldl_nil, ih,
        lastMatchValue_concat, lastMatchValue_concat, lastMatchValue_concat,
        lastMatchValue_concat]
      unfold applyNutrient
      split_ifs <;> simp_all

theorem extractNutrients_eq_lastMatch (r : FoodRecord) :
    extractNutrients r =
      ⟨lastMatchValue "Energy" r.foodNutrients,
       lastMatchValue "Protein" r.foodNutrients,
       lastMatchValue "Carbohydrate, by difference" r.foodNutrients,
       lastMatchValue "Total lipid (fat)" r.foodNutrients⟩ :=
  foldl_applyNutrient_eq r.foodNutrients

theorem mem_of_getLast?_eq {α : Type} {l : List α} {a : α}
    (h : l.getLast? = some a) : a ∈ l := by
  induction l with
  | nil => cases h
  | cons x xs ih =>
      rw [List.getLast?_cons] at h
      cases hx : xs.getLast? with
      | none => rw [hx] at h; simp at h; simp [h]
      | some b =>
          rw [hx] at h
          simp at h
          exact List.mem_cons_of_mem x (ih (by rw [hx, h]))

theorem lastMatchValue_nonneg (name : String) (l : List NutrientEntry)
    (h : ∀ n ∈ l, 0 ≤ n.value) : 0 ≤ lastMatchValue name l := by
  unfold lastMatchValue
  cases hl : (l.filter fun n => n.nutrientName = name).getLast? with
  | none => exact le_refl 0
  | some n =>
      exact h n (List.mem_of_mem_filter (mem_of_getLast?_eq hl))

theorem extractNutrients_nonneg (r : FoodRecord)
    (h : ∀ n ∈ r.foodNutrients, 0 ≤ n.value) :
    0 ≤ (extractNutrients r).calories ∧ 0 ≤ (extractNutrients r).protein ∧
    0 ≤ (extractNutrients r).carbs ∧ 0 ≤ (extractNutrients r).fat := by
  rw [extractNutrients_eq_lastMatch]
  exact ⟨lastMatchValue_nonneg _ _ h, lastMatchValue_nonneg _ _ h,
    lastMatchValue_nonneg _ _ h, lastMatchValue_nonneg _ _ h⟩

theorem applyNutrient_scale (k : ℚ) (p : NutrientProfile) (n : NutrientEntry) :
    applyNutrient (scaleProfile k p) (scaleEntry k n) =
      scaleProfile k (applyNutrient p n) := by
  unfold applyNutrient scaleEntry scaleProfile
  split_ifs <;> simp_all

theorem foldl_applyNutrient_scale (k : ℚ) (l : List NutrientEntry)
    (p : NutrientProfile) :
    (l.map (scaleEntry k)).foldl applyNutrient (scaleProfile k p) =
      scaleProfile k (l.foldl applyNutrient p) := by
  induction l generalizing p with
  | nil => rfl
  | cons n t ih =>
      rw [List.map_cons, List.foldl_cons, List.foldl_cons, applyNutrient_scale]
      exact ih (applyNutrient p n)

theorem extractNutrients_scaleRecord (k : ℚ) (r : FoodRecord) :
    extractNutrients (scaleRecord k r) = scaleProfile k (extractNutrients r) := by
  unfold extractNutrients scaleRecord
  have h0 : (⟨0, 0, 0, 0⟩ : NutrientProfile) = scaleProfile k ⟨0, 0, 0, 0⟩ := by
    unfold scaleProfile
    simp
  conv_lhs => rw [h0]
  rw [foldl_applyNutrient_scale]

theorem mealStep_found (lookup : String → LookupOutcome) (meal : Meal) (i : ℕ)
    (t : MealTotals) (ing : String) (r : FoodRecord)
    (h1 : meal.strIngredient i = some ing) (h2 : jsTrimStr ing ≠ "")
    (h3 : lookup ing = .found r) :
    mealStep lookup meal i t =
      addTotals t (scaledContribution (extractNutrients r)
        (estimateGramsFromMeasure (meal.strMeasure i))) := by
  simp only [mealStep, h1, h3]
  rw [if_neg h2]
  rfl

theorem mealStep_blank (lookup : String → LookupOutcome) (meal : Meal) (i : ℕ)
    (t : MealTotals) (h : blankIngredient (meal.strIngredient i) = true) :
    mealStep lookup meal i t = t := by
  unfold blankIngredient at h
  cases hi : meal.strIngredient i with
  | none => simp only [mealStep, hi]
  | some s =>
      rw [hi] at h
      simp only [decide_eq_true_eq] at h
      simp only [mealStep, hi]
      rw [if_pos h]

theorem mealStep_fail (lookup : String → LookupOutcome) (meal : Meal) (i : ℕ)
    (t : MealTotals) (ing : String) (h1 : meal.strIngredient i = some ing)
    (hf : lookup ing = .err ∨ lookup ing = .noRecord) :
    mealStep lookup meal i t = t := by
  simp only [mealStep, h1]
  by_cases h2 : jsTrimStr ing = ""
  · rw [if_pos h2]
  · rw [if_neg h2]
    rcases hf with hf | hf <;> simp only [hf]

theorem totalsAfterSlots_succ (lookup : String → LookupOutcome) (meal : Meal)
    (k : ℕ) :
    totalsAfterSlots lookup meal (k + 1) =
      mealStep lookup meal (k + 1) (totalsAfterSlots lookup meal k) := by
  unfold totalsAfterSlots
  rw [List.range_succ, List.foldl_append, List.foldl_cons, List.foldl_nil]

/-! ## Claims -/

/-- C1: scaling is linear everywhere.  (a) Extracting from a record whose
nutrient values are scaled by `k` equals scaling the extracted profile by
`k`.  (b) Each displayed value in the direct-lookup path is the extracted
per-100g value times `targetGrams / 100`.  (c) Scaling a finite per-100g
value by a finite gram amount is exactly multiplication by `g / 100`.
(d) Each found ingredient's contribution to the meal totals is the extracted
profile scaled by `grams / 100`. -/
theorem scaling_linear_c1 :
    (∀ (k : ℚ) (r : FoodRecord),
        extractNutrients (scaleRecord k r) = scaleProfile k (extractNutrients r)) ∧
    (∀ (p : NutrientProfile) (g : ℚ),
        displayNutrients p g =
          ⟨p.calories * (g / 100), p.protein * (g / 100),
           p.carbs * (g / 100), p.fat * (g / 100)⟩) ∧
    (∀ (v g : ℚ),
        jsMul (JsNum.num v) (jsDiv (JsNum.num g) (JsNum.num 100)) =
          JsNum.num (v * (g / 100))) ∧
    (∀ (lookup : String → LookupOutcome) (meal : Meal) (i : ℕ) (t : MealTotals)
        (ing : String) (r : FoodRecord),
        meal.strIngredient i = some ing → jsTrimStr ing ≠ "" →
        lookup ing = .found r →
        mealStep lookup meal i t =
          addTotals t (scaledContribution (extractNutrients r)
            (estimateGramsFromMeasure (meal.strMeasure i)))) := by
  refine ⟨extractNutrients_scaleRecord, fun p g => rfl, fun v g => ?_, mealStep_found⟩
  have h100 : ¬((100 : ℚ) = 0) := by norm_num
  simp only [jsDiv, if_neg h100, jsMul]

/-- Concrete instance of C1(d): one found ingredient with measure
"150 g" contributes the extracted apple profile scaled by its grams. -/
def lookupApple : String → LookupOutcome := fun _ => .found appleRecord

/-- A meal whose every slot is "apple" with measure "150 g". -/
def mealApple : Meal := ⟨fun _ => some "apple", fun _ => some "150 g"⟩

theorem scaling_linear_c1_witness :
    mealStep lookupApple mealApple 1 MealTotals.zero =
      addTotals MealTotals.zero (scaledContribution (extractNutrients appleRecord)
        (estimateGramsFromMeasure (some "150 g"))) :=
  scaling_linear_c1.2.2.2 lookupApple mealApple 1 MealTotals.zero "apple"
    appleRecord rfl (by decide) rfl

/-- C2: the Nutrient Extractor starts from the all-zero profile and gives
each field the value of the last entry whose name exactly matches the
corresponding recognized name (duplicates overwrite, unrecognized names are
ignored, missing names leave 0); a record with no recognized names yields
the all-zero profile, and extraction is total (never raises). -/
theorem extractor_last_match_c2 (r : FoodRecord) :
    extractNutrients r =
      ⟨lastMatchValue "Energy" r.foodNutrients,
       lastMatchValue "Protein" r.foodNutrients,
       lastMatchValue "Carbohydrate, by difference" r.foodNutrients,
       lastMatchValue "Total lipid (fat)" r.foodNutrients⟩ ∧
    ((∀ n ∈ r.foodNutrients, n.nutrientName ∉ recognizedNames) →
      extractNutrients r = ⟨0, 0, 0, 0⟩) := by
  refine ⟨extractNutrients_eq_lastMatch r, fun h => ?_⟩
  rw [extractNutrients_eq_lastMatch r]
  have hz : ∀ name : String, name ∈ recognizedNames →
      lastMatchValue name r.foodNutrients = 0 := by
    intro name hn
    unfold lastMatchValue
    have hfil : (r.foodNutrients.filter fun n => n.nutrientName = name) = [] := by
      rw [List.filter_eq_nil_iff]
      intro n hmem
      simp only [decide_eq_true_eq]
      intro he
      exact h n hmem (he ▸ hn)
    rw [hfil]
    rfl
  rw [hz "Energy" (by decide), hz "Protein" (by decide),
    hz "Carbohydrate, by difference" (by decide),
    hz "Total lipid (fat)" (by decide)]

/-- A record whose only entry has an unrecognized name. -/
def waterRecord : FoodRecord := ⟨[⟨"Water", 5⟩]⟩

theorem extractor_last_match_c2_witness :
    extractNutrients waterRecord = ⟨0, 0, 0, 0⟩ :=
  (extractor_last_match_c2 waterRecord).2 (by decide)

/-- C5: the Quantity Normalizer satisfies the spec's five test vectors
exactly. -/
theorem normalizer_vectors_c5 :
    estimateGramsFromMeasure (some "1/2 cup") = JsNum.num 120 ∧
    estimateGramsFromMeasure (some "2 tbsp") = JsNum.num 30 ∧
    estimateGramsFromMeasure (some "") = JsNum.num 100 ∧
    estimateGramsFromMeasure (some "abc") = JsNum.num 100 ∧
    estimateGramsFromMeasure (some "3 grams") = JsNum.num 3 := by
  refine ⟨?_, ?_, rfl, rfl, ?_⟩
  · have h : estimateGramsFromMeasure (some "1/2 cup") =
        JsNum.num ((1 : ℚ) / 2 * 240) := rfl
    rw [h]
    norm_num
  · have h : estimateGramsFromMeasure (some "2 tbsp") =
        JsNum.num ((2 : ℚ) * 15) := rfl
    rw [h]
    norm_num
  · have h : estimateGramsFromMeasure (some "3 grams") =
        JsNum.num ((3 : ℚ) * 1) := rfl
    rw [h]
    norm_num

/-- C9: end-to-end direct lookup of "apple" at 150 grams against a provider
whose first record carries Energy 52, Protein 0.3, Carbohydrate 14, fat 0.2
per 100g computes calories 78, protein 0.45, carbs 21, fat 0.3 (the DOM
renders exactly these numbers, through `toFixed(1)`). -/
theorem direct_lookup_apple_c9 :
    calculate (fun _ => some appleRecord) "apple" 150 =
      some ⟨78, 9 / 20, 21, 3 / 10⟩ := by
  have h : calculate (fun _ => some appleRecord) "apple" 150 =
      some ⟨(52 : ℚ) * (150 / 100), (3 / 10 : ℚ) * (150 / 100),
        (14 : ℚ) * (150 / 100), (1 / 5 : ℚ) * (150 / 100)⟩ := rfl
  rw [h]
  simp only [Option.some.injEq, NutrientProfile.mk.injEq]
  norm_num

theorem foldl_fixpoint {α β : Type} (f : α → β → α) (l : List β) (a : α)
    (h : ∀ t, ∀ x ∈ l, f t x = t) : l.foldl f a = a := by
  induction l generalizing a with
  | nil => rfl
  | cons x xs ih =>
      rw [List.foldl_cons, h a x (List.mem_cons_self x xs)]
      exact ih a (fun t y hy => h t y (List.mem_cons_of_mem x hy))

/-- C3: the Aggregator isolates per-ingredient failures.  If the lookup
oracle `Lf` fails (throws or returns no record) on the ingredient of slot
`j` and agrees with `L` on every other ingredient name, the totals computed
with `Lf` equal the totals computed with the healthy oracle `L` on the meal
with slot `j` blanked out: the failing ingredient contributes zero, the
failure is not propagated (the fold is total and all other slots are still
processed), and the result is the correct sum over the succeeding slots. -/
theorem aggregator_failure_isolation_c3
    (L Lf : String → LookupOutcome) (meal : Meal) (tgt : String) (j : ℕ)
    (hj1 : 1 ≤ j) (hj2 : j ≤ 20)
    (hslot : meal.strIngredient j = some tgt)
    (hfail : Lf tgt = .err ∨ Lf tgt = .noRecord)
    (hagree : ∀ ing, ing ≠ tgt → Lf ing = L ing)
    (hothers : ∀ i, 1 ≤ i → i ≤ 20 → i ≠ j → meal.strIngredient i ≠ some tgt) :
    estimateMealNutrition Lf meal = estimateMealNutrition L (blankSlot meal j) := by
  unfold estimateMealNutrition totalsAfterSlots
  apply List.foldl_ext
  intro t x hx
  have hx20 : x < 20 := List.mem_range.mp hx
  by_cases hxj : x + 1 = j
  · rw [hxj]
    rw [mealStep_fail Lf meal j t tgt hslot hfail]
    rw [mealStep_blank L (blankSlot meal j) j t (by simp [blankSlot, blankIngredient])]
  · have hneq : meal.strIngredient (x + 1) ≠ some tgt :=
      hothers (x + 1) (by omega) (by omega) hxj
    cases hing : meal.strIngredient (x + 1) with
    | none => simp only [mealStep, blankSlot, if_neg hxj, hing]
    | some ing =>
        have hi : ing ≠ tgt := fun he => hneq (by rw [hing, he])
        simp only [mealStep, blankSlot, if_neg hxj, hing, hagree ing hi]

/-- Oracle that fails exactly on "milk". -/
def lookupFailMilk : String → LookupOutcome :=
  fun ing => if ing = "milk" then .err else .found appleRecord

/-- Oracle that always finds the apple record. -/
def lookupAllApple : String → LookupOutcome := fun _ => .found appleRecord

/-- A meal whose only nonblank slot is slot 1, containing "milk". -/
def mealOneMilk : Meal :=
  ⟨fun i => if i = 1 then some "milk" else none, fun _ => none⟩

theorem aggregator_failure_isolation_c3_witness :
    estimateMealNutrition lookupFailMilk mealOneMilk =
      estimateMealNutrition lookupAllApple (blankSlot mealOneMilk 1) :=
  aggregator_failure_isolation_c3 lookupAllApple lookupFailMilk mealOneMilk
    "milk" 1 (by decide) (by decide) rfl (Or.inl rfl)
    (fun ing h => by simp [lookupFailMilk, lookupAllApple, h])
    (fun i _ _ h3 => by simp [mealOneMilk, h3])

/-- C7: the Aggregator skips exactly the slots whose ingredient is absent or
blank after trimming — such a slot leaves the running totals unchanged — and
a meal whose 20 slots are all absent or blank yields the all-zero totals. -/
theorem aggregator_blank_c7 :
    (∀ (lookup : String → LookupOutcome) (meal : Meal) (i : ℕ) (t : MealTotals),
        blankIngredient (meal.strIngredient i) = true →
        mealStep lookup meal i t = t) ∧
    (∀ (lookup : String → LookupOutcome) (meal : Meal),
        (∀ i, 1 ≤ i → i ≤ 20 → blankIngredient (meal.strIngredient i) = true) →
        estimateMealNutrition lookup meal = MealTotals.zero) := by
  refine ⟨mealStep_blank, fun lookup meal h => ?_⟩
  unfold estimateMealNutrition totalsAfterSlots
  apply foldl_fixpoint
  intro t x hx
  have hx20 : x < 20 := List.mem_range.mp hx
  exact mealStep_blank lookup meal (x + 1) t (h (x + 1) (by omega) (by omega))

/-- The all-empty meal. -/
def emptyMeal : Meal := ⟨fun _ => none, fun _ => none⟩

theorem aggregator_blank_c7_witness :
    estimateMealNutrition lookupAllApple emptyMeal = MealTotals.zero :=
  aggregator_blank_c7.2 lookupAllApple emptyMeal (fun _ _ _ => rfl)

theorem jsMatch_eq_none_of_no_pattern (s : String)
    (h : numUnitPattern false s = false) : jsMatch (cleanChars s) = none := by
  unfold numUnitPattern at h
  simp only [Bool.not_false, Bool.true_or, Bool.and_true, Bool.true_and] at h
  unfold jsMatch
  by_cases h1 : ((cleanChars s).takeWhile isTokChar).isEmpty
  · rw [if_pos h1]
  · rw [if_neg h1]
    by_cases h2 : ((((cleanChars s).drop
        ((cleanChars s).takeWhile isTokChar).length).dropWhile
          jsIsSpace).takeWhile Char.isAlpha).isEmpty
    · rw [if_pos h2]
    · exfalso
      rw [Bool.not_eq_true] at h1 h2
      rw [h1, h2] at h
      cases h

/-- C4 (amended): the Normalizer returns the fixed default of 100 grams for
every input that is null, is the empty string, or — after trimming and
lowercasing — does not consist of a leading token of digits, dots and
slashes followed by OPTIONAL whitespace and then an alphabetic unit token;
no such input produces any other result or an error.  (The original claim
required whitespace between the two tokens; the code's pattern makes it
optional, see the counterexample.) -/
theorem normalizer_default_c4 :
    estimateGramsFromMeasure none = JsNum.num 100 ∧
    estimateGramsFromMeasure (some "") = JsNum.num 100 ∧
    (∀ s : String, numUnitPattern false s = false →
      estimateGramsFromMeasure (some s) = JsNum.num 100) := by
  refine ⟨rfl, rfl, fun s h => ?_⟩
  by_cases hs : s = ""
  · rw [hs]
    rfl
  · have hm := jsMatch_eq_none_of_no_pattern s h
    simp only [estimateGramsFromMeasure, hm]
    rw [if_neg hs]

theorem normalizer_default_c4_witness :
    estimateGramsFromMeasure (some "hello") = JsNum.num 100 :=
  normalizer_default_c4.2.2 "hello" rfl

/-- C4 fails as stated: the input "2tbsp" has no whitespace between the
numeric token and the unit token, so it does not match the claim's
pattern (mandatory whitespace), yet the Normalizer returns 30, not the
default 100. -/
theorem normalizer_default_c4_counterexample :
    numUnitPattern true "2tbsp" = false ∧
    estimateGramsFromMeasure (some "2tbsp") = JsNum.num 30 ∧
    JsNum.num 30 ≠ JsNum.num 100 := by
  refine ⟨rfl, ?_, by decide⟩
  have h : estimateGramsFromMeasure (some "2tbsp") = JsNum.num ((2 : ℚ) * 15) := rfl
  rw [h]
  norm_num

/-- C6: when the matched quantity token contains "/", it is split at the
slashes and the first two pieces are divided; if the denominator piece
parses to a nonzero number the division is well-defined and the result is
exactly (numerator / denominator) × grams-per-unit, where grams-per-unit is
the program's looked-up factor (`unitGramsJs`, which for every unit other
than the inherited key "constructor" is the table value or the 100
default).  A token without "/" is parsed as a decimal number.  There is no
guard against a zero denominator: "1/0 cup" propagates the IEEE division
result (Infinity) instead of falling back to the default. -/
theorem fraction_parsing_c6 (s : String) (tok unit : List Char) (a b : ℚ)
    (hm : jsMatch (cleanChars s) = some (tok, unit))
    (hslash : '/' ∈ tok)
    (hnum : jsParseFloat ((tok.splitOn '/').getD 0 []) = JsNum.num a)
    (hden : jsParseFloat ((tok.splitOn '/').getD 1 []) = JsNum.num b)
    (hb : b ≠ 0) :
    estimateGramsFromMeasure (some s) =
      jsMul (JsNum.num (a / b)) (unitGramsJs (String.mk unit)) ∧
    (String.mk unit ≠ "constructor" →
      estimateGramsFromMeasure (some s) =
        JsNum.num (a / b * ((measureToGrams (String.mk unit)).getD 100))) ∧
    (∀ tok2 : List Char, '/' ∉ tok2 → tokenQuantity tok2 = jsParseFloat tok2) ∧
    estimateGramsFromMeasure (some "1/0 cup") = JsNum.posInf := by
  have hs : s ≠ "" := by
    intro he
    rw [he] at hm
    have h0 : jsMatch (cleanChars "") = none := rfl
    rw [h0] at hm
    cases hm
  have hres : estimateGramsFromMeasure (some s) =
      jsMul (JsNum.num (a / b)) (unitGramsJs (String.mk unit)) := by
    simp only [estimateGramsFromMeasure, hm]
    rw [if_neg hs]
    unfold tokenQuantity
    rw [if_pos hslash]
    simp only [hnum, hden, jsDiv]
    rw [if_neg hb]
  refine ⟨hres, fun hnc => ?_, fun tok2 h2 => ?_, rfl⟩
  · rw [hres]
    unfold unitGramsJs
    rw [if_neg hnc]
    simp only [jsMul]
  · unfold tokenQuantity
    rw [if_neg h2]

theorem fraction_parsing_c6_witness :
    estimateGramsFromMeasure (some "1/2 cup") =
      JsNum.num ((1 : ℚ) / 2 *
        ((measureToGrams (String.mk ['c', 'u', 'p'])).getD 100)) :=
  (fraction_parsing_c6 "1/2 cup" ['1', '/', '2'] ['c', 'u', 'p'] 1 2
    (by decide) (by decide) (by decide) (by decide) (by decide)).2.1 (by decide)

theorem measureToGrams_eq_none (u : String) (h : u ∉ unitKeys) :
    measureToGrams u = none := by
  have g1 : ¬(u = "cup") := fun he => h (by rw [he]; decide)
  have g2 : ¬(u = "tablespoon") := fun he => h (by rw [he]; decide)
  have g3 : ¬(u = "tbsp") := fun he => h (by rw [he]; decide)
  have g4 : ¬(u = "teaspoon") := fun he => h (by rw [he]; decide)
  have g5 : ¬(u = "tsp") := fun he => h (by rw [he]; decide)
  have g6 : ¬(u = "slice") := fun he => h (by rw [he]; decide)
  have g7 : ¬(u = "slices") := fun he => h (by rw [he]; decide)
  have g8 : ¬(u = "piece") := fun he => h (by rw [he]; decide)
  have g9 : ¬(u = "pieces") := fun he => h (by rw [he]; decide)
  have g10 : ¬(u = "oz") := fun he => h (by rw [he]; decide)
  have g11 : ¬(u = "ounces") := fun he => h (by rw [he]; decide)
  have g12 : ¬(u = "pound") := fun he => h (by rw [he]; decide)
  have g13 : ¬(u = "lb") := fun he => h (by rw [he]; decide)
  have g14 : ¬(u = "g") := fun he => h (by rw [he]; decide)
  have g15 : ¬(u = "gram") := fun he => h (by rw [he]; decide)
  have g16 : ¬(u = "grams") := fun he => h (by rw [he]; decide)
  unfold measureToGrams
  rw [if_neg g1, if_neg g2, if_neg g3, if_neg g4, if_neg g5, if_neg g6,
    if_neg g7, if_neg g8, if_neg g9, if_neg g10, if_neg g11, if_neg g12,
    if_neg g13, if_neg g14, if_neg g15, if_neg g16]

theorem measureToGrams_isSome_iff (u : String) :
    (measureToGrams u).isSome = true ↔ u ∈ unitKeys := by
  constructor
  · intro hs
    by_contra hmem
    rw [measureToGrams_eq_none u hmem] at hs
    cases hs
  · intro hmem
    have hall : ∀ x ∈ unitKeys, (measureToGrams x).isSome = true := by decide
    exact hall u hmem

/-- C8 (amended): for every successfully matched (quantity, unit) pair, the
result is always quantity × grams-per-unit with no upper or lower bound
clamping; grams-per-unit defaults to 100 when the unit token is neither one
of the sixteen table keys nor the inherited object-prototype key
"constructor", and `measureToGrams` is defined on exactly the sixteen keys.
For the unit "constructor" the lookup yields the truthy inherited Object
constructor instead of the default, and the product is NaN, see the
counterexample. -/
theorem unit_default_c8 (s : String) (tok unit : List Char)
    (hm : jsMatch (cleanChars s) = some (tok, unit)) :
    estimateGramsFromMeasure (some s) =
      jsMul (tokenQuantity tok) (unitGramsJs (String.mk unit)) ∧
    (String.mk unit ∉ unitKeys → String.mk unit ≠ "constructor" →
      unitGramsJs (String.mk unit) = JsNum.num 100) ∧
    unitGramsJs "constructor" = JsNum.nan ∧
    (∀ u : String, (measureToGrams u).isSome = true ↔ u ∈ unitKeys) := by
  refine ⟨?_, fun hnot hnc => ?_, rfl, measureToGrams_isSome_iff⟩
  · have hs : s ≠ "" := by
      intro he
      rw [he] at hm
      have h0 : jsMatch (cleanChars "") = none := rfl
      rw [h0] at hm
      cases hm
    simp only [estimateGramsFromMeasure, hm]
    rw [if_neg hs]
  · have hnone : measureToGrams (String.mk unit) = none := by
      cases hval : measureToGrams (String.mk unit) with
      | none => rfl
      | some v =>
          exact absurd ((measureToGrams_isSome_iff (String.mk unit)).mp
            (by rw [hval]; rfl)) hnot
    unfold unitGramsJs
    rw [if_neg hnc, hnone]
    rfl

theorem unit_default_c8_witness :
    estimateGramsFromMeasure (some "2 xyz") =
      jsMul (tokenQuantity ['2'])
        (unitGramsJs (String.mk ['x', 'y', 'z'])) :=
  (unit_default_c8 "2 xyz" ['2'] ['x', 'y', 'z'] (by decide)).1

/-- C8 fails as stated: in "2 constructor" the captured unit token
"constructor" is not one of the sixteen table keys, so the claim demands
the 100 default and a result of 2 × 100; the program instead finds the
inherited truthy `Object.prototype.constructor`, skips the `|| 100`
default, and returns NaN. -/
theorem unit_default_c8_counterexample :
    jsMatch (cleanChars "2 constructor") =
      some (['2'], ['c', 'o', 'n', 's', 't', 'r', 'u', 'c', 't', 'o', 'r']) ∧
    String.mk ['c', 'o', 'n', 's', 't', 'r', 'u', 'c', 't', 'o', 'r'] ∉ unitKeys ∧
    estimateGramsFromMeasure (some "2 constructor") = JsNum.nan ∧
    (∀ q : ℚ, JsNum.nan ≠ JsNum.num q) :=
  ⟨by decide, by decide, rfl, fun q h => by cases h⟩

theorem mealStep_nonneg (lookup : String → LookupOutcome) (meal : Meal)
    (i : ℕ) (t : MealTotals)
    (hrec : ∀ ing r, lookup ing = .found r → ∀ n ∈ r.foodNutrients, 0 ≤ n.value)
    (hmeas : NonnegJs (estimateGramsFromMeasure (meal.strMeasure i)))
    (ht : NonnegTotals t) : NonnegTotals (mealStep lookup meal i t) := by
  cases hing : meal.strIngredient i with
  | none =>
      rw [mealStep_blank lookup meal i t (by rw [hing]; rfl)]
      exact ht
  | some ing =>
      by_cases htrim : jsTrimStr ing = ""
      · rw [mealStep_blank lookup meal i t
          (by rw [hing]; simp [blankIngredient, htrim])]
        exact ht
      · cases hlk : lookup ing with
        | err =>
            rw [mealStep_fail lookup meal i t ing hing (Or.inl hlk)]
            exact ht
        | noRecord =>
            rw [mealStep_fail lookup meal i t ing hing (Or.inr hlk)]
            exact ht
        | found r =>
            rw [mealStep_found lookup meal i t ing r hing htrim hlk]
            obtain ⟨g, hg, hg0⟩ := hmeas
            obtain ⟨⟨qc, hqc, hqc0⟩, ⟨qp, hqp, hqp0⟩, ⟨qb, hqb, hqb0⟩,
              ⟨qf, hqf, hqf0⟩⟩ := ht
            obtain ⟨hc, hp, hcb, hf⟩ := extractNutrients_nonneg r (hrec ing r hlk)
            have h100 : ¬((100 : ℚ) = 0) := by norm_num
            have hscale : (0 : ℚ) ≤ g / 100 := by positivity
            unfold addTotals scaledContribution
            rw [hg]
            simp only [jsDiv, if_neg h100, jsMul, jsAdd, hqc, hqp, hqb, hqf]
            exact ⟨⟨qc + (extractNutrients r).calories * (g / 100), rfl,
                by positivity⟩,
              ⟨qp + (extractNutrients r).protein * (g / 100), rfl, by positivity⟩,
              ⟨qb + (extractNutrients r).carbs * (g / 100), rfl, by positivity⟩,
              ⟨qf + (extractNutrients r).fat * (g / 100), rfl, by positivity⟩⟩

/-- C10: under the preconditions that every nutrient value of every record
the provider can return is nonnegative and that every slot's estimated gram
value is a nonnegative (finite) number, all four fields of the running
totals accumulator are nonnegative after every loop iteration, and the
final totals are the 20th iterate — each iteration only adds a nonnegative
scaled contribution. -/
theorem totals_nonneg_c10 (lookup : String → LookupOutcome) (meal : Meal)
    (hrec : ∀ ing r, lookup ing = .found r → ∀ n ∈ r.foodNutrients, 0 ≤ n.value)
    (hmeas : ∀ i, NonnegJs (estimateGramsFromMeasure (meal.strMeasure i))) :
    (∀ k, NonnegTotals (totalsAfterSlots lookup meal k)) ∧
    estimateMealNutrition lookup meal = totalsAfterSlots lookup meal 20 := by
  refine ⟨fun k => ?_, rfl⟩
  induction k with
  | zero =>
      exact ⟨⟨0, rfl, le_refl 0⟩, ⟨0, rfl, le_refl 0⟩,
        ⟨0, rfl, le_refl 0⟩, ⟨0, rfl, le_refl 0⟩⟩
  | succ k ih =>
      rw [totalsAfterSlots_succ]
      exact mealStep_nonneg lookup meal (k + 1) (totalsAfterSlots lookup meal k)
        hrec (hmeas (k + 1)) ih

theorem totals_nonneg_c10_witness :
    NonnegTotals (totalsAfterSlots lookupFailMilk emptyMeal 20) :=
  (totals_nonneg_c10 lookupFailMilk emptyMeal
    (fun ing r hlk => by
      unfold lookupFailMilk at hlk
      by_cases h : ing = "milk"
      · rw [if_pos h] at hlk; cases hlk
      · rw [if_neg h] at hlk
        cases hlk
        intro n hn
        simp only [appleRecord, List.mem_cons, List.not_mem_nil, or_false] at hn
        rcases hn with h1 | h1 | h1 | h1 <;> rw [h1] <;> norm_num)
    (fun i => ⟨100, rfl, by norm_num⟩)).1 20
